import Mathlib

/-!
Verification development for the invest-agent job orchestration core and its
web frontend.  The backend job system (state machine, admission queue, runner,
log broadcast, recovery sweep) is specified in `spec.md` and `CLAUDE.md` but its
Python sources are not part of this tree, so those components are modelled from
the specification text; the TypeScript frontend (`web/src`) is embedded
directly from its sources.
-/

namespace InvestAgent

/-- Job status, from the lifecycle `queued -> running -> done|failed|cancelled`
(CLAUDE.md "Job model", spec section 4.1). -/
inductive Status
  | queued
  | running
  | done
  | failed
  | cancelled
  deriving DecidableEq

/-- Terminal states are `done`, `failed`, `cancelled` (spec glossary). -/
def Status.isTerminal : Status → Bool
  | .done => true
  | .failed => true
  | .cancelled => true
  | _ => false

/-- Job class: heavy jobs are subject to concurrency limits, light jobs bypass
them (spec section 4.2). -/
inductive JobClass
  | heavy
  | light
  deriving DecidableEq

/-- Modelled from the spec: a job row of the durable store (spec section 3 and
CLAUDE.md "Job model"): identity, owner, status, class, `queued_at` timestamp,
the cooperative cancellation flag, and the emitted log lines in emission order
(the persisted `log_text` is their newline join).  Log lines are modelled as
character sequences. -/
structure Job where
  id : Nat
  owner : Nat
  status : Status
  jobClass : JobClass
  queued_at : Nat
  cancelRequested : Bool
  lines : List (List Char)
  deriving DecidableEq

/-- A job is in the admission queue iff it is heavy and currently `queued`
(spec section 4.2). -/
def isQueuedHeavy (j : Job) : Bool :=
  decide (j.status = Status.queued) && decide (j.jobClass = JobClass.heavy)

/-- Modelled from the spec: the admission-queue ordering, `queued_at` ascending
with ties broken by job id ascending (spec section 4.2), as a strict order. -/
def keyLT (a b : Job) : Bool :=
  decide (a.queued_at < b.queued_at) ||
    (decide (a.queued_at = b.queued_at) && decide (a.id < b.id))

/-- The weak companion order of `keyLT`. -/
def keyLE (a b : Job) : Bool :=
  !(keyLT b a)

/-- Insertion step of the queue sort. -/
def insertJob (j : Job) : List Job → List Job
  | [] => [j]
  | k :: ks => if keyLE j k then j :: k :: ks else k :: insertJob j ks

/-- Sorts jobs by `queued_at` ascending, ties by id ascending. -/
def sortJobs : List Job → List Job
  | [] => []
  | j :: js => insertJob j (sortJobs js)

/-- 1-based position of a job in a list (0 when absent past the end). -/
def posIn (j : Job) : List Job → Nat
  | [] => 0
  | k :: ks => if k = j then 1 else 1 + posIn j ks

/-- Modelled from the spec: the Admission Queue orders the currently queued
heavy jobs of the store by `queued_at` ascending, ties by id ascending (spec
section 4.2).  Every queued heavy job is ranked, regardless of whether its
owner is at the per-user cap. -/
def admissionQueue (store : List Job) : List Job :=
  sortJobs (store.filter isQueuedHeavy)

/-- Modelled from the spec: `queue_position` is the 1-based rank of the job in
the admission queue (spec section 4.2). -/
def queuePosition (store : List Job) (j : Job) : Nat :=
  posIn j (admissionQueue store)

/-- Number of queued heavy jobs strictly ahead of `j` in the queue order. -/
def aheadCount (store : List Job) (j : Job) : Nat :=
  (store.filter isQueuedHeavy).countP (fun x => keyLT x j)

/-- Store update setting the status of the job with id `i` (all other rows are
untouched); models the single transition of one job. -/
def statusSet (store : List Job) (i : Nat) (s : Status) : List Job :=
  store.map (fun k => if k.id = i then { k with status := s } else k)

/-- Modelled from the spec: the log line appended by the Recovery Sweep,
"noting a forced cancellation due to restart" (spec section 4.5). -/
def forcedLine : List Char :=
  "Job cancelled due to service restart".data

/-- Modelled from the spec: how the Recovery Sweep resolves one row — a
`running` job is transitioned directly to `cancelled` with the forced
cancellation log line appended, every other row is untouched (spec section 4.5,
CLAUDE.md: "On service restart, any job marked running is set to cancelled"). -/
def sweepOne (j : Job) : Job :=
  if j.status = Status.running then
    { j with status := Status.cancelled, lines := j.lines ++ [forcedLine] }
  else j

/-- Modelled from the spec: the Recovery Sweep over the whole durable store
(spec section 4.5).  It is a pure scan: no handler is invoked, resumed or
replayed. -/
def recoverySweep (store : List Job) : List Job :=
  store.map sweepOne

/-- Modelled from the spec: `cancel` (spec section 4.1) — a `queued` job
transitions directly to `cancelled`; a `running` job gets its cooperative
cancellation flag set; a terminal job is left unchanged.  The second component
is the success flag: cancel always reports success. -/
def cancelJob (j : Job) : Job × Bool :=
  match j.status with
  | Status.queued => ({ j with status := Status.cancelled }, true)
  | Status.running => ({ j with cancelRequested := true }, true)
  | _ => (j, true)

/-- Modelled from the spec: the persisted `log_text` is the newline join of the
emitted log lines (spec section 8 scenario; CLAUDE.md `log_text`). -/
def logText (lines : List (List Char)) : List Char :=
  List.intercalate ['\n'] lines

/-- Splitting a log text on newline, as the frontend does
(`data.log_text.split("\n")` in the LogViewer of `part_003`). -/
def splitLog (t : List Char) : List (List Char) :=
  t.splitOn '\n'

/-- Modelled from the spec: a subscriber attaching when `attachAt` lines are in
the backlog receives that backlog followed by all subsequently emitted lines,
in emission order (spec section 4.4). -/
def subscriberStream (j : Job) (attachAt : Nat) : List (List Char) :=
  j.lines.take attachAt ++ j.lines.drop attachAt

/-- Outcome of a handler invocation (spec section 4.3): success, failure with
an error message, or an honored cancellation. -/
inductive HandlerOutcome
  | success
  | failure (msg : List Char)
  | cancelledAck
  deriving DecidableEq

/-- Terminal status chosen by the Runner for each handler outcome (spec
section 4.3). -/
def finishStatus : HandlerOutcome → Status
  | .success => Status.done
  | .failure _ => Status.failed
  | .cancelledAck => Status.cancelled

/-- Modelled from the spec: the Runner executes a job — the handler's emitted
lines are appended in call order, a handler error message is appended to the
log, and the terminal status follows the outcome (spec section 4.3). -/
def runJob (j : Job) (emitted : List (List Char)) (o : HandlerOutcome) : Job :=
  { j with
    status := finishStatus o,
    lines := j.lines ++ emitted ++
      (match o with
       | .failure m => [m]
       | _ => []) }

/-- Events of the job live stream (spec section 6): `line` events, the closing
`done` event, and the immediate `queued` event for a job that has not started. -/
inductive StreamEvent
  | lineEv (s : List Char)
  | doneEv
  | queuedEv
  deriving DecidableEq

/-- Modelled from the spec: the live stream of a job (spec section 6).  A job
that has not started yields a single `queued` event; otherwise the emitted
lines are pushed as `line` events, closed by a `done` event once the job is
terminal. -/
def streamEvents (j : Job) : List StreamEvent :=
  if j.status = Status.queued then [StreamEvent.queuedEv]
  else
    j.lines.map StreamEvent.lineEv ++
      (if j.status.isTerminal then [StreamEvent.doneEv] else [])

/-- The waiting marker displayed by both LogViewer frontends
(`setLines(["Waiting in queue..."])`). -/
def waitingMarker : List Char :=
  "Waiting in queue...".data

/-- Lines accumulated by the SSE LogViewer of `app/countries/page.tsx` from a
stream: a `line` event appends, `done` closes the source (later events are
never seen), `queued` replaces the lines with the waiting marker and closes. -/
def sseClientLines : List StreamEvent → List (List Char)
  | [] => []
  | StreamEvent.lineEv s :: evs => s :: sseClientLines evs
  | StreamEvent.doneEv :: _ => []
  | StreamEvent.queuedEv :: _ => [waitingMarker]

/-- React effect re-run counting for a dependency comparator: the effect runs
once on mount and again whenever the dependency array changes between two
consecutive renders. -/
def effectRunsAfter (sameDeps : Nat × Status → Nat × Status → Bool) :
    Nat × Status → List (Nat × Status) → Nat
  | _, [] => 0
  | prev, p :: ps =>
    (if sameDeps prev p then 0 else 1) + effectRunsAfter sameDeps p ps

/-- Total number of effect runs over a sequence of rendered props. -/
def effectRunCount (sameDeps : Nat × Status → Nat × Status → Bool) :
    List (Nat × Status) → Nat
  | [] => 0
  | p :: ps => 1 + effectRunsAfter sameDeps p ps

/-- Dependency comparator of the SSE LogViewer in `app/countries/page.tsx`:
its effect closes over `[jobId]` only. -/
def sseDeps (a b : Nat × Status) : Bool :=
  decide (a.1 = b.1)

/-- Dependency comparator of the polling LogViewer in `part_003`
(`components/LogViewer`): its effect depends on `[jobId, status]`. -/
def pollingDeps (a b : Nat × Status) : Bool :=
  decide (a.1 = b.1) && decide (a.2 = b.2)

/-- Number of EventSource connections the SSE LogViewer opens over a render
sequence: one per effect run. -/
def sseConnections (props : List (Nat × Status)) : Nat :=
  effectRunCount sseDeps props

/-- Number of times the polling LogViewer's effect (which starts the log fetch
loop) runs over a render sequence. -/
def pollingEffectRuns (props : List (Nat × Status)) : Nat :=
  effectRunCount pollingDeps props

/-- Opaque job parameters payload. -/
abbrev Params := List Char

/-- Submission errors (spec sections 4.1 and 7). -/
inductive SubmitError
  | validationError
  | unknownCommand
  | quotaExceeded
  deriving DecidableEq

/-- HTTP status of each submission error (spec section 6: 422 on schema
violation or unknown command, 429 on quota exhaustion). -/
def submitHttpStatus : SubmitError → Nat
  | .validationError => 422
  | .unknownCommand => 422
  | .quotaExceeded => 429

/-- Modelled from the spec: the collaborator-supplied configuration of the
submit path — the registered command names, the per-command schema validator,
the plan-derived remaining quota, and the job classification. -/
structure SubmitConfig where
  handlers : List String
  validParams : String → Params → Bool
  quotaLeft : Nat → String → Nat
  classify : String → JobClass

/-- Modelled from the spec: `submit(owner, command, params)` (spec section
4.1).  All checks run before any row is created: unknown command, then schema
validation, then quota; only on success is the `queued` row appended to the
store and returned. -/
def submit (cfg : SubmitConfig) (store : List Job) (owner : Nat) (cmd : String)
    (p : Params) (nid now : Nat) : Except SubmitError (List Job × Job) :=
  if !(cfg.handlers.contains cmd) then Except.error SubmitError.unknownCommand
  else if !(cfg.validParams cmd p) then Except.error SubmitError.validationError
  else if cfg.quotaLeft owner cmd = 0 then Except.error SubmitError.quotaExceeded
  else
    let j : Job :=
      { id := nid, owner := owner, status := Status.queued,
        jobClass := cfg.classify cmd, queued_at := now,
        cancelRequested := false, lines := [] }
    Except.ok (store ++ [j], j)

/-- The store as seen after a submit call: unchanged when submit failed. -/
def submitStoreAfter (cfg : SubmitConfig) (store : List Job) (owner : Nat)
    (cmd : String) (p : Params) (nid now : Nat) : List Job :=
  match submit cfg store owner cmd p nid now with
  | Except.ok (s, _) => s
  | Except.error _ => store

/-- Outcome of a delete call (spec sections 4.1 and 6). -/
inductive DeleteOutcome
  | okDeleted
  | conflict
  deriving DecidableEq

/-- HTTP status of each delete outcome (spec section 6: 409 on a non-terminal
job). -/
def deleteHttpStatus : DeleteOutcome → Nat
  | .okDeleted => 200
  | .conflict => 409

/-- Modelled from the spec: `delete(job_id, owner)` is permitted only in a
terminal state and soft-removes the row; otherwise it fails with a conflict
and the store is unchanged (spec section 4.1). -/
def deleteFromStore (store : List Job) (j : Job) : List Job × DeleteOutcome :=
  if j.status.isTerminal then
    (store.filter (fun k => decide (k.id ≠ j.id)), DeleteOutcome.okDeleted)
  else (store, DeleteOutcome.conflict)

/-- The rendered name of each status, as serialized by the API and consumed by
the frontend. -/
def statusString : Status → String
  | .queued => "queued"
  | .running => "running"
  | .done => "done"
  | .failed => "failed"
  | .cancelled => "cancelled"

/-- `JobsTable.tsx`: the Delete button is offered iff
`job.status !== "running" && job.status !== "queued"`. -/
def showDeleteButton (s : String) : Bool :=
  decide (s ≠ "running") && decide (s ≠ "queued")

/-- `JobDetail.tsx`: the Delete button is offered iff
`!["running", "queued"].includes(job.status)`. -/
def jobDetailShowDelete (s : String) : Bool :=
  !(["running", "queued"].contains s)

/-- A parsed JSON value, as resolved by `res.json()`: null, booleans, numbers
(modelled as integers), strings, arrays and objects. -/
inductive Json
  | nullVal
  | boolVal (b : Bool)
  | numVal (n : Int)
  | strVal (s : String)
  | arr (elems : List Json)
  | obj (fields : List (String × Json))

/-- An HTTP response as observed by `lib/api.ts`: its status code and the
result of parsing its body as JSON (`none` when the body is not valid JSON). -/
structure ApiResponse where
  status : Nat
  bodyJson : Option Json

/-- `Response.ok` of the fetch API: status in the 200-299 range. -/
def resOk (r : ApiResponse) : Bool :=
  decide (200 ≤ r.status) && decide (r.status < 300)

/-- JavaScript truthiness of a JSON value: null, false, 0 and the empty
string are falsy; every other JSON value (including any array or object) is
truthy. -/
def jsTruthyJson : Json → Bool
  | .nullVal => false
  | .boolVal b => b
  | .numVal n => decide (n ≠ 0)
  | .strVal s => decide (s ≠ "")
  | .arr _ => true
  | .obj _ => true

mutual

/-- JavaScript `String()` conversion of a JSON value, as applied by
`new Error(m)` to a non-string message: null is "null", booleans and integers
print themselves, a string is itself, an array joins its elements with commas,
and a plain object is "[object Object]". -/
def jsToString : Json → String
  | .nullVal => "null"
  | .boolVal true => "true"
  | .boolVal false => "false"
  | .numVal n => toString n
  | .strVal s => s
  | .arr xs => String.intercalate "," (jsToStringElems xs)
  | .obj _ => "[object Object]"

/-- Array elements under `Array.prototype.toString`: a null element renders
as the empty string, every other element by its own conversion. -/
def jsToStringElems : List Json → List String
  | [] => []
  | Json.nullVal :: xs => "" :: jsToStringElems xs
  | x :: xs => jsToString x :: jsToStringElems xs

end

/-- Result of the JavaScript property access `body.detail`: a TypeError is
raised when `body` is null, an object yields its own `detail` field or
undefined, and every other value (string, number, boolean, array) yields
undefined without throwing. -/
inductive JsProp
  | threw
  | undef
  | val (v : Json)

/-- The property access `body.detail` on a parsed JSON body. -/
def getDetail : Json → JsProp
  | .nullVal => JsProp.threw
  | .obj fields =>
    match fields.lookup "detail" with
    | some v => JsProp.val v
    | none => JsProp.undef
  | _ => JsProp.undef

/-- Observable outcome of an `apiJson` call: a returned parsed body, a
redirect to `/login` with a thrown message, a thrown Error with its message,
a TypeError raised by the `body.detail` access on a null body, or a
propagated JSON parse rejection on an ok response. -/
inductive ApiOutcome
  | success (b : Json)
  | redirectLogin (thrown : String)
  | apiError (msg : String)
  | typeError
  | jsonError

/-- `lib/api.ts`: `apiFetch` redirects to `/login` and throws "Unauthorized"
on status 401; on any other non-ok response `apiJson` reads `body.detail`
from the parsed body (a body that fails to parse contributes an empty object
via the catch; a JSON-null body makes the access itself raise a TypeError)
and throws an Error whose message is the detail value stringified when
truthy and "API error: <status>" otherwise; an ok response returns the
parsed JSON body (a parse failure on the ok path rejects). -/
def apiJson (r : ApiResponse) : ApiOutcome :=
  if r.status = 401 then ApiOutcome.redirectLogin "Unauthorized"
  else if !(resOk r) then
    let b := r.bodyJson.getD (Json.obj [])
    match getDetail b with
    | JsProp.threw => ApiOutcome.typeError
    | JsProp.undef => ApiOutcome.apiError ("API error: " ++ toString r.status)
    | JsProp.val v =>
      if jsTruthyJson v then ApiOutcome.apiError (jsToString v)
      else ApiOutcome.apiError ("API error: " ++ toString r.status)
  else
    match r.bodyJson with
    | some b => ApiOutcome.success b
    | none => ApiOutcome.jsonError

/-- The style registered for `cancelled` in `StatusBadge.tsx`, also the
fallback of the lookup. -/
def cancelledStyle : String :=
  "bg-gray-800 text-gray-400 border-gray-600"

/-- `StatusBadge.tsx`: the `STATUS_STYLES` record as a partial lookup. -/
def STATUS_STYLES (s : String) : Option String :=
  if s = "queued" then some "bg-yellow-900/50 text-yellow-300 border-yellow-700"
  else if s = "running" then some "bg-blue-900/50 text-blue-300 border-blue-700"
  else if s = "done" then some "bg-green-900/50 text-green-300 border-green-700"
  else if s = "failed" then some "bg-red-900/50 text-red-300 border-red-700"
  else if s = "cancelled" then some cancelledStyle
  else none

/-- The member names of `Object.prototype`, reachable through the prototype
chain of the `STATUS_STYLES` object literal by a bracket lookup. -/
def objectProtoMembers : List String :=
  ["constructor", "hasOwnProperty", "isPrototypeOf", "propertyIsEnumerable",
   "toLocaleString", "toString", "valueOf", "__proto__", "__defineGetter__",
   "__defineSetter__", "__lookupGetter__", "__lookupSetter__"]

/-- The value produced by the JavaScript lookup `STATUS_STYLES[status]`: one
of the record's own style strings, a member inherited from
`Object.prototype` (a function or, for `__proto__`, an object — truthy
either way), or undefined. -/
inductive JsVal
  | strVal (s : String)
  | inherited (name : String)
  | undef
  deriving DecidableEq

/-- The JavaScript bracket lookup `STATUS_STYLES[status]`: an own property
when registered, otherwise the prototype chain is consulted before the
lookup yields undefined. -/
def styleLookup (s : String) : JsVal :=
  match STATUS_STYLES s with
  | some v => JsVal.strVal v
  | none =>
    if s ∈ objectProtoMembers then JsVal.inherited s else JsVal.undef

/-- JavaScript truthiness of a lookup result: undefined is falsy, inherited
functions and objects are truthy, a string is truthy iff non-empty. -/
def jsTruthyVal : JsVal → Bool
  | .strVal s => decide (s ≠ "")
  | .inherited _ => true
  | .undef => false

/-- `StatusBadge.tsx`: `STATUS_STYLES[status] || STATUS_STYLES.cancelled`. -/
def badgeStyle (s : String) : JsVal :=
  if jsTruthyVal (styleLookup s) then styleLookup s
  else JsVal.strVal cancelledStyle

/-- `StatusBadge.tsx` always renders the raw status text. -/
def badgeText (s : String) : String :=
  s

/-- `StatusBadge.tsx`: the pulsing indicator dot is rendered exactly when
`status === "running"`. -/
def showsDot (s : String) : Bool :=
  decide (s = "running")

/-- The five status names registered in `STATUS_STYLES`. -/
def knownStatuses : List String :=
  ["queued", "running", "done", "failed", "cancelled"]

/-- A concrete queued heavy job. -/
def exQueuedJob : Job :=
  { id := 1, owner := 10, status := Status.queued, jobClass := JobClass.heavy,
    queued_at := 5, cancelRequested := false, lines := [] }

/-- A concrete finished heavy job with two emitted lines. -/
def exDoneJob : Job :=
  { id := 3, owner := 11, status := Status.done, jobClass := JobClass.heavy,
    queued_at := 1, cancelRequested := false,
    lines := ["step1".data, "step2".data] }

/-- Queued heavy job submitted first (for the queue-position witness). -/
def exJobA : Job :=
  { id := 1, owner := 20, status := Status.queued, jobClass := JobClass.heavy,
    queued_at := 1, cancelRequested := false, lines := [] }

/-- Queued heavy job tying on `queued_at` with `exJobC`, smaller id. -/
def exJobB : Job :=
  { id := 2, owner := 21, status := Status.queued, jobClass := JobClass.heavy,
    queued_at := 4, cancelRequested := false, lines := [] }

/-- Queued heavy job tying on `queued_at` with `exJobB`, larger id. -/
def exJobC : Job :=
  { id := 3, owner := 22, status := Status.queued, jobClass := JobClass.heavy,
    queued_at := 4, cancelRequested := false, lines := [] }

/-- A store holding the three queued heavy jobs, deliberately unsorted. -/
def exStore : List Job :=
  [exJobC, exJobA, exJobB]

/-- An orphaned running job, as the Recovery Sweep finds it. -/
def exSweepRunning : Job :=
  { id := 1, owner := 10, status := Status.running, jobClass := JobClass.heavy,
    queued_at := 0, cancelRequested := false, lines := [] }

/-- A job already cancelled before the restart. -/
def exSweepOld : Job :=
  { id := 2, owner := 11, status := Status.cancelled, jobClass := JobClass.heavy,
    queued_at := 0, cancelRequested := false, lines := [] }

/-- A store at process start with one running and one already-cancelled row. -/
def exSweepStore : List Job :=
  [exSweepRunning, exSweepOld]

/-- A concrete submit configuration with one registered command. -/
def exCfg : SubmitConfig :=
  { handlers := ["country_refresh"],
    validParams := fun _ p => decide (p ≠ []),
    quotaLeft := fun _ _ => 1,
    classify := fun _ => JobClass.heavy }

/-- A 500 response whose JSON body carries an empty `detail` string. -/
def exDetailEmptyRes : ApiResponse :=
  { status := 500, bodyJson := some (Json.obj [("detail", Json.strVal "")]) }

/-- An ok response with a JSON body. -/
def exOkRes : ApiResponse :=
  { status := 200, bodyJson := some (Json.obj []) }

/-- A non-ok response whose body is JSON null. -/
def exNullBodyRes : ApiResponse :=
  { status := 503, bodyJson := some Json.nullVal }

/-- A 422 response with a FastAPI-style array `detail`. -/
def exArrDetailRes : ApiResponse :=
  { status := 422,
    bodyJson := some (Json.obj [("detail", Json.arr [Json.strVal "body invalid"])]) }

theorem keyLT_iff {a b : Job} :
    keyLT a b = true ↔
      a.queued_at < b.queued_at ∨ (a.queued_at = b.queued_at ∧ a.id < b.id) := by
  simp [keyLT]

theorem keyLE_iff {a b : Job} :
    keyLE a b = true ↔
      a.queued_at < b.queued_at ∨ (a.queued_at = b.queued_at ∧ a.id ≤ b.id) := by
  simp only [keyLE, Bool.not_eq_true', ← Bool.not_eq_true, keyLT_iff]
  omega

theorem keyLT_irrefl (a : Job) : keyLT a a = false := by
  simp [keyLT]

theorem keyLE_total (a b : Job) : keyLE a b = true ∨ keyLE b a = true := by
  rw [keyLE_iff, keyLE_iff]
  omega

theorem keyLE_trans {a b c : Job} (h1 : keyLE a b = true) (h2 : keyLE b c = true) :
    keyLE a c = true := by
  rw [keyLE_iff] at h1 h2 ⊢
  omega

theorem keyLT_of_keyLE_of_ne_id {a b : Job} (h : keyLE a b = true)
    (hne : a.id ≠ b.id) : keyLT a b = true := by
  rw [keyLE_iff] at h
  rw [keyLT_iff]
  omega

theorem keyLT_false_of_keyLE {a b : Job} (h : keyLE a b = true) :
    keyLT b a = false := by
  rw [keyLE_iff] at h
  rw [← Bool.not_eq_true, keyLT_iff]
  omega

theorem perm_insertJob (j : Job) (l : List Job) : (insertJob j l).Perm (j :: l) := by
  induction l with
  | nil => simp [insertJob]
  | cons k ks ih =>
    by_cases h : keyLE j k = true
    · simp [insertJob, h]
    · simp only [insertJob, if_neg h]
      exact (ih.cons k).trans (List.Perm.swap j k ks)

theorem perm_sortJobs (l : List Job) : (sortJobs l).Perm l := by
  induction l with
  | nil => simp [sortJobs]
  | cons j js ih => exact (perm_insertJob j (sortJobs js)).trans (ih.cons j)

theorem pairwise_insertJob {j : Job} {l : List Job}
    (h : l.Pairwise (fun a b => keyLE a b = true)) :
    (insertJob j l).Pairwise (fun a b => keyLE a b = true) := by
  induction l with
  | nil => simp [insertJob]
  | cons k ks ih =>
    rcases List.pairwise_cons.mp h with ⟨hk, hks⟩
    by_cases hle : keyLE j k = true
    · simp only [insertJob, if_pos hle]
      refine List.pairwise_cons.mpr ⟨?_, h⟩
      intro x hx
      rcases List.mem_cons.mp hx with rfl | hx2
      · exact hle
      · exact keyLE_trans hle (hk x hx2)
    · simp only [insertJob, if_neg hle]
      refine List.pairwise_cons.mpr ⟨?_, ih hks⟩
      intro x hx
      rcases List.mem_cons.mp ((perm_insertJob j ks).mem_iff.mp hx) with rfl | hx3
      · rcases keyLE_total x k with h1 | h1
        · exact absurd h1 hle
        · exact h1
      · exact hk x hx3

theorem pairwise_sortJobs (l : List Job) :
    (sortJobs l).Pairwise (fun a b => keyLE a b = true) := by
  induction l with
  | nil => simp [sortJobs]
  | cons j js ih => exact pairwise_insertJob ih

theorem posIn_sorted {j : Job} :
    ∀ {l : List Job}, l.Pairwise (fun a b => keyLE a b = true) →
      (l.map Job.id).Nodup → j ∈ l →
      posIn j l = 1 + l.countP (fun x => keyLT x j) := by
  intro l
  induction l with
  | nil => intro _ _ hj; cases hj
  | cons k ks ih =>
    intro hp hnd hj
    rcases List.pairwise_cons.mp hp with ⟨hk, hks⟩
    have hnd2 : (ks.map Job.id).Nodup := (List.nodup_cons.mp (by simpa using hnd)).2
    by_cases hkj : k = j
    · subst hkj
      have h0 : ks.countP (fun x => keyLT x k) = 0 := by
        rw [List.countP_eq_zero]
        intro x hx
        simp only [Bool.not_eq_true]
        exact keyLT_false_of_keyLE (hk x hx)
      simp [posIn, List.countP_cons, keyLT_irrefl, h0]
    · have hj2 : j ∈ ks := by
        rcases List.mem_cons.mp hj with h | h
        · exact absurd h.symm hkj
        · exact h
      have hne : k.id ≠ j.id := by
        intro he
        have hknodup : k.id ∉ ks.map Job.id := (List.nodup_cons.mp (by simpa using hnd)).1
        exact hknodup (he ▸ List.mem_map_of_mem Job.id hj2)
      have hlt : keyLT k j = true := keyLT_of_keyLE_of_ne_id (hk j hj2) hne
      have hrec := ih hks hnd2 hj2
      simp only [posIn, if_neg hkj, List.countP_cons, hlt, if_pos]
      omega

theorem queuePosition_eq {store : List Job} {j : Job}
    (hnd : (store.map Job.id).Nodup) (hj : j ∈ store)
    (hq : isQueuedHeavy j = true) :
    queuePosition store j = 1 + aheadCount store j := by
  have hperm := perm_sortJobs (store.filter isQueuedHeavy)
  have hsorted := pairwise_sortJobs (store.filter isQueuedHeavy)
  have hndf : ((store.filter isQueuedHeavy).map Job.id).Nodup :=
    List.Nodup.sublist ((List.filter_sublist store).map Job.id) hnd
  have hnds : ((sortJobs (store.filter isQueuedHeavy)).map Job.id).Nodup :=
    ((hperm.map Job.id).nodup_iff).mpr hndf
  have hjf : j ∈ store.filter isQueuedHeavy := List.mem_filter.mpr ⟨hj, hq⟩
  have hjs : j ∈ sortJobs (store.filter isQueuedHeavy) := hperm.mem_iff.mpr hjf
  have h := posIn_sorted hsorted hnds hjs
  rw [queuePosition, admissionQueue, h, hperm.countP_eq]
  rfl

theorem terminal_ne_queued {s : Status} (hs : s.isTerminal = true) :
    s ≠ Status.queued := by
  cases s <;> simp_all [Status.isTerminal]

theorem statusSet_id_map (i : Nat) (s : Status) :
    ∀ store : List Job, (statusSet store i s).map Job.id = store.map Job.id := by
  intro store
  induction store with
  | nil => rfl
  | cons x xs ih =>
    have h1 : (if x.id = i then { x with status := s } else x).id = x.id := by
      split <;> rfl
    simp only [statusSet, List.map_cons] at ih ⊢
    rw [h1, ih]

theorem statusSet_eq_of_forall_ne {i : Nat} {s : Status} :
    ∀ {l : List Job}, (∀ x ∈ l, x.id ≠ i) → statusSet l i s = l := by
  intro l
  induction l with
  | nil => intro _; rfl
  | cons x xs ih =>
    intro h
    have hx : x.id ≠ i := h x (List.mem_cons_self x xs)
    have hxs := ih fun y hy => h y (List.mem_cons_of_mem x hy)
    simp only [statusSet, List.map_cons, if_neg hx]
    simp only [statusSet] at hxs
    rw [hxs]

theorem mem_statusSet_of_ne {store : List Job} {j : Job} {i : Nat} {s : Status}
    (hj : j ∈ store) (hne : j.id ≠ i) : j ∈ statusSet store i s := by
  have h : (fun k => if k.id = i then { k with status := s } else k) j = j := by
    simp [hne]
  exact h ▸ List.mem_map_of_mem _ hj

theorem countP_filter_statusSet {k : Job} {s : Status} {p : Job → Bool} :
    ∀ {store : List Job}, (store.map Job.id).Nodup → k ∈ store →
      isQueuedHeavy k = true → s.isTerminal = true → p k = true →
      ((statusSet store k.id s).filter isQueuedHeavy).countP p + 1
        = (store.filter isQueuedHeavy).countP p := by
  intro store
  induction store with
  | nil => intro _ hk; cases hk
  | cons x xs ih =>
    intro hnd hk hkq hs hpk
    have hnd1 : x.id ∉ xs.map Job.id := (List.nodup_cons.mp (by simpa using hnd)).1
    have hnd2 : (xs.map Job.id).Nodup := (List.nodup_cons.mp (by simpa using hnd)).2
    rcases List.mem_cons.mp hk with rfl | hk2
    · have hupd : isQueuedHeavy { k with status := s } = false := by
        simp [isQueuedHeavy, terminal_ne_queued hs]
      have hrest : statusSet xs k.id s = xs :=
        statusSet_eq_of_forall_ne fun y hy he =>
          hnd1 (he ▸ List.mem_map_of_mem Job.id hy)
      have hmap : statusSet (k :: xs) k.id s = { k with status := s } :: xs := by
        simp only [statusSet, List.map_cons] at hrest ⊢
        rw [hrest]
        simp
      rw [hmap, List.filter_cons, List.filter_cons, hupd, hkq]
      simp [List.countP_cons, hpk]
    · have hxi : x.id ≠ k.id := by
        intro he
        exact hnd1 (he ▸ List.mem_map_of_mem Job.id hk2)
      have hih := ih hnd2 hk2 hkq hs hpk
      have hmap : statusSet (x :: xs) k.id s = x :: statusSet xs k.id s := by
        simp only [statusSet, List.map_cons, if_neg hxi]
      rw [hmap, List.filter_cons, List.filter_cons]
      by_cases hqx : isQueuedHeavy x = true
      · rw [if_pos hqx, if_pos hqx, List.countP_cons, List.countP_cons]
        by_cases hpx : p x = true <;> omega
      · rw [if_neg hqx, if_neg hqx]
        exact hih

/-- C1: in a store with distinct job ids, `queue_position` of a queued heavy
job `j` is its 1-based rank under the ordering by `queued_at` ascending with
ties broken by id ascending, counted over all currently queued heavy jobs
(one plus the number of queued heavy jobs strictly ahead of it, regardless of
any per-user cap on their owners), and when any queued heavy job `k` ahead of
`j` reaches a terminal state the position of `j` decrements by exactly one. -/
theorem queue_position_rank_and_decrement (store : List Job) (j k : Job)
    (s : Status) (hnd : (store.map Job.id).Nodup) (hj : j ∈ store)
    (hk : k ∈ store) (hjq : isQueuedHeavy j = true)
    (hkq : isQueuedHeavy k = true) (hahead : keyLT k j = true)
    (hs : s.isTerminal = true) :
    queuePosition store j = 1 + aheadCount store j ∧
      queuePosition (statusSet store k.id s) j + 1 = queuePosition store j := by
  have h1 := queuePosition_eq hnd hj hjq
  have hne : j.id ≠ k.id := by
    intro he
    have hjk : j = k := List.inj_on_of_nodup_map hnd hj hk he
    rw [hjk] at hahead
    rw [keyLT_irrefl] at hahead
    cases hahead
  have hj2 : j ∈ statusSet store k.id s := mem_statusSet_of_ne hj hne
  have hnd2 : ((statusSet store k.id s).map Job.id).Nodup := by
    rw [statusSet_id_map]
    exact hnd
  have h2 := queuePosition_eq hnd2 hj2 hjq
  have h3 := countP_filter_statusSet (p := fun x => keyLT x j) hnd hk hkq hs hahead
  refine ⟨h1, ?_⟩
  rw [h1, h2]
  unfold aheadCount
  omega

/-- Witness for C1 at a concrete three-job store: `exJobC` ties with `exJobB`
on `queued_at` and loses the id tie-break, so it sits at position 3; when
`exJobB` reaches `done` its position drops to 2. -/
theorem queue_position_rank_and_decrement_witness :
    queuePosition exStore exJobC = 1 + aheadCount exStore exJobC ∧
      queuePosition (statusSet exStore exJobB.id Status.done) exJobC + 1
        = queuePosition exStore exJobC :=
  queue_position_rank_and_decrement exStore exJobC exJobB Status.done
    (by decide) (by decide) (by decide) (by decide) (by decide) (by decide)
    (by decide)

/-- C2 counterexample: a store holding one `running` row and one row already
`cancelled` before the restart has N = 1 running row, yet after the Recovery
Sweep two jobs are `cancelled`, so it is not the case that exactly the N
previously-running jobs carry status `cancelled`. -/
theorem recovery_sweep_counterexample :
    exSweepStore.countP (fun j => decide (j.status = Status.running)) = 1 ∧
      (recoverySweep exSweepStore).countP
          (fun j => decide (j.status = Status.cancelled)) = 2 ∧
      ¬((recoverySweep exSweepStore).countP
            (fun j => decide (j.status = Status.cancelled))
          = exSweepStore.countP (fun j => decide (j.status = Status.running))) := by
  decide

theorem recoverySweep_running_zero (store : List Job) :
    (recoverySweep store).countP (fun j => decide (j.status = Status.running))
      = 0 := by
  rw [List.countP_eq_zero]
  intro a ha
  simp only [recoverySweep] at ha
  rcases List.mem_map.mp ha with ⟨b, _, rfl⟩
  by_cases hbs : b.status = Status.running <;> simp [sweepOne, hbs]

theorem recoverySweep_cancelled_count (store : List Job) :
    (recoverySweep store).countP (fun j => decide (j.status = Status.cancelled))
      = store.countP (fun j => decide (j.status = Status.cancelled))
        + store.countP (fun j => decide (j.status = Status.running)) := by
  induction store with
  | nil => rfl
  | cons x xs ih =>
    by_cases hx : x.status = Status.running
    · have hnc : ¬(x.status = Status.cancelled) := by
        rw [hx]
        intro h
        cases h
      simp [recoverySweep, sweepOne, hx, hnc, List.countP_cons] at ih ⊢
      omega
    · by_cases hc : x.status = Status.cancelled <;>
        simp [recoverySweep, sweepOne, hx, hc, List.countP_cons] at ih ⊢ <;>
        omega

/-- C2 (amended): after the Recovery Sweep no job is `running`; each of the N
previously-running jobs is transitioned to `cancelled` with the forced
cancellation log line appended; every other row is untouched; and the number
of `cancelled` rows equals N plus the rows that were already `cancelled`
before the restart. -/
theorem recovery_sweep_spec (store : List Job) :
    (recoverySweep store).countP (fun j => decide (j.status = Status.running))
        = 0 ∧
      (recoverySweep store).countP
          (fun j => decide (j.status = Status.cancelled))
        = store.countP (fun j => decide (j.status = Status.cancelled))
          + store.countP (fun j => decide (j.status = Status.running)) ∧
      (∀ j ∈ store, j.status = Status.running →
        (sweepOne j).status = Status.cancelled ∧
          (sweepOne j).lines = j.lines ++ [forcedLine] ∧
          sweepOne j ∈ recoverySweep store) ∧
      ∀ j ∈ store, j.status ≠ Status.running → sweepOne j = j := by
  refine ⟨recoverySweep_running_zero store,
    recoverySweep_cancelled_count store, ?_, ?_⟩
  · intro j hj hrun
    exact ⟨by simp [sweepOne, hrun], by simp [sweepOne, hrun],
      List.mem_map_of_mem sweepOne hj⟩
  · intro j _ hrun
    simp [sweepOne, hrun]

/-- Witness for C2 (amended) at a one-row store holding a single orphaned
running job. -/
theorem recovery_sweep_spec_witness :
    (recoverySweep [exSweepRunning]).countP
        (fun j => decide (j.status = Status.running)) = 0 ∧
      (sweepOne exSweepRunning).status = Status.cancelled ∧
      (sweepOne exSweepRunning).lines = exSweepRunning.lines ++ [forcedLine] := by
  refine ⟨(recovery_sweep_spec [exSweepRunning]).1, ?_, ?_⟩
  · exact ((recovery_sweep_spec [exSweepRunning]).2.2.1 exSweepRunning
      (by simp) rfl).1
  · exact ((recovery_sweep_spec [exSweepRunning]).2.2.1 exSweepRunning
      (by simp) rfl).2.1

/-- C3: `cancel` on a `queued` job yields status `cancelled`; `cancel` is
idempotent (cancelling the result of a cancel changes nothing, which covers
cancelling the same job twice); `cancel` on an already-terminal job leaves the
job unchanged; and `cancel` always reports success. -/
theorem cancel_idempotent_spec (j : Job) :
    (j.status = Status.queued → (cancelJob j).1.status = Status.cancelled) ∧
      (cancelJob (cancelJob j).1).1 = (cancelJob j).1 ∧
      (j.status.isTerminal = true → (cancelJob j).1 = j) ∧
      (cancelJob j).2 = true := by
  cases hs : j.status <;> simp [cancelJob, hs, Status.isTerminal]

/-- Witness for C3 at a concrete queued job. -/
theorem cancel_idempotent_witness :
    (cancelJob exQueuedJob).1.status = Status.cancelled ∧
      (cancelJob (cancelJob exQueuedJob).1).1 = (cancelJob exQueuedJob).1 ∧
      (cancelJob exQueuedJob).2 = true :=
  ⟨(cancel_idempotent_spec exQueuedJob).1 rfl,
    (cancel_idempotent_spec exQueuedJob).2.1,
    (cancel_idempotent_spec exQueuedJob).2.2.2⟩

/-- C4 counterexample: a queued job that is cancelled directly reaches a
terminal state with no emitted lines, yet splitting its (empty) persisted log
text on newline yields `[[]]`, a single empty line, not the empty emitted
sequence — the split/join round trip fails for a job with no emitted lines. -/
theorem log_roundtrip_counterexample :
    (cancelJob exQueuedJob).1.status.isTerminal = true ∧
      (cancelJob exQueuedJob).1.lines = [] ∧
      splitLog (logText (cancelJob exQueuedJob).1.lines) = [[]] ∧
      splitLog (logText (cancelJob exQueuedJob).1.lines)
        ≠ (cancelJob exQueuedJob).1.lines := by
  decide

/-- C4 (amended): for a job that has emitted at least one line, none of which
contains a newline character, any subscriber receives exactly the emitted
lines in order (backlog at attach time followed by the live remainder), the
persisted log text is their newline join, and splitting that text on newline
recovers exactly the emitted sequence; a handler that emits "step1" then
"step2" and returns success leaves log text "step1\nstep2" and status done. -/
theorem log_roundtrip_spec (j : Job) (attachAt : Nat) (hne : j.lines ≠ [])
    (hnl : ∀ l ∈ j.lines, '\n' ∉ l) :
    subscriberStream j attachAt = j.lines ∧
      splitLog (logText j.lines) = j.lines ∧
      (runJob exQueuedJob ["step1".data, "step2".data]
          HandlerOutcome.success).status = Status.done ∧
      logText (runJob exQueuedJob ["step1".data, "step2".data]
          HandlerOutcome.success).lines = "step1\nstep2".data := by
  refine ⟨List.take_append_drop attachAt j.lines, ?_, by decide, by decide⟩
  exact List.splitOn_intercalate j.lines '\n' hnl hne

/-- Witness for C4 (amended) at the finished job that emitted "step1" and
"step2". -/
theorem log_roundtrip_witness :
    subscriberStream exDoneJob 1 = exDoneJob.lines ∧
      splitLog (logText exDoneJob.lines) = exDoneJob.lines :=
  ⟨(log_roundtrip_spec exDoneJob 1 (by decide) (by decide)).1,
    (log_roundtrip_spec exDoneJob 1 (by decide) (by decide)).2.1⟩

/-- C5: the live stream of a job that has not started is a single `queued`
event (after which the stream closes); while the job runs the stream carries
only `line` events; and once the job is terminal the stream is the emitted
`line` events closed by a final `done` event. -/
theorem live_stream_spec (j : Job) :
    (j.status = Status.queued → streamEvents j = [StreamEvent.queuedEv]) ∧
      (j.status = Status.running →
        streamEvents j = j.lines.map StreamEvent.lineEv) ∧
      (j.status.isTerminal = true →
        streamEvents j = j.lines.map StreamEvent.lineEv ++ [StreamEvent.doneEv]) := by
  cases hs : j.status <;> simp [streamEvents, hs, Status.isTerminal]

/-- Witness for C5 at a concrete queued job and a concrete finished job. -/
theorem live_stream_witness :
    streamEvents exQueuedJob = [StreamEvent.queuedEv] ∧
      streamEvents exDoneJob
        = exDoneJob.lines.map StreamEvent.lineEv ++ [StreamEvent.doneEv] :=
  ⟨(live_stream_spec exQueuedJob).1 rfl, (live_stream_spec exDoneJob).2.2 rfl⟩

/-- C6: evaluated at the failing input. A subscriber attaching to a queued
job's stream does receive the single waiting marker and the stream closes,
but over the render sequence where the same job's status then turns to
`running`, the SSE LogViewer of `app/countries/page.tsx` opens exactly one
EventSource — its effect depends only on `[jobId]`, so it never reconnects —
whereas the polling LogViewer of `components/LogViewer` (`part_003`), whose
effect depends on `[jobId, status]`, re-attaches and runs twice. -/
theorem log_viewer_reconnect_divergence :
    sseClientLines (streamEvents exQueuedJob) = [waitingMarker] ∧
      sseConnections [(7, Status.queued), (7, Status.running)] = 1 ∧
      pollingEffectRuns [(7, Status.queued), (7, Status.running)] = 2 := by
  decide

/-- C7: `submit` fails with `UnknownCommand` (HTTP 422) when no handler is
registered for the command, with `ValidationError` (HTTP 422) when the
registered schema rejects the parameters, and with `QuotaExceeded` (HTTP 429)
when the owner's quota for the command is exhausted; on every error the store
is unchanged (no job row is created), and on success exactly one `queued` row
is appended and returned. -/
theorem submit_spec (cfg : SubmitConfig) (store : List Job) (owner : Nat)
    (cmd : String) (p : Params) (nid now : Nat) :
    (cfg.handlers.contains cmd = false →
      submit cfg store owner cmd p nid now
        = Except.error SubmitError.unknownCommand) ∧
      (cfg.handlers.contains cmd = true → cfg.validParams cmd p = false →
        submit cfg store owner cmd p nid now
          = Except.error SubmitError.validationError) ∧
      (cfg.handlers.contains cmd = true → cfg.validParams cmd p = true →
        cfg.quotaLeft owner cmd = 0 →
        submit cfg store owner cmd p nid now
          = Except.error SubmitError.quotaExceeded) ∧
      (∀ e, submit cfg store owner cmd p nid now = Except.error e →
        submitStoreAfter cfg store owner cmd p nid now = store) ∧
      (∀ s2 j, submit cfg store owner cmd p nid now = Except.ok (s2, j) →
        s2 = store ++ [j] ∧ j.status = Status.queued) ∧
      submitHttpStatus SubmitError.unknownCommand = 422 ∧
      submitHttpStatus SubmitError.validationError = 422 ∧
      submitHttpStatus SubmitError.quotaExceeded = 429 := by
  refine ⟨?_, ?_, ?_, ?_, ?_, rfl, rfl, rfl⟩
  · intro h1
    have h1m : ¬(cmd ∈ cfg.handlers) := by simpa using h1
    simp [submit, h1m]
  · intro h1 h2
    have h1m : cmd ∈ cfg.handlers := by simpa using h1
    simp [submit, h1m, h2]
  · intro h1 h2 h3
    have h1m : cmd ∈ cfg.handlers := by simpa using h1
    simp [submit, h1m, h2, h3]
  · intro e he
    unfold submitStoreAfter
    rw [he]
  · intro s2 j h
    unfold submit at h
    split_ifs at h with h1 h2 h3
    simp only [Except.ok.injEq, Prod.mk.injEq, reduceCtorEq] at h
    rcases h with ⟨h4, h5⟩
    subst h5
    exact ⟨h4.symm, rfl⟩

/-- Witness for C7: submitting an unregistered command fails with
`UnknownCommand` and leaves the empty store empty, and a successful submit of
the registered command appends one queued row. -/
theorem submit_spec_witness :
    submit exCfg [] 9 "bogus" "x".data 0 0
        = Except.error SubmitError.unknownCommand ∧
      submitStoreAfter exCfg [] 9 "bogus" "x".data 0 0 = [] := by
  refine ⟨(submit_spec exCfg [] 9 "bogus" "x".data 0 0).1 (by decide), ?_⟩
  exact (submit_spec exCfg [] 9 "bogus" "x".data 0 0).2.2.2.1
    SubmitError.unknownCommand
    ((submit_spec exCfg [] 9 "bogus" "x".data 0 0).1 (by decide))

/-- C8: deleting a job succeeds exactly when the job is terminal (`done`,
`failed` or `cancelled`); on a `queued` or `running` job it fails with a
conflict (HTTP 409) leaving the store unchanged; non-terminal is exactly
`queued` or `running`; and both frontends (JobsTable and JobDetail) offer the
delete action exactly for statuses other than "queued" and "running", which
over the five real statuses is exactly the terminal ones. -/
theorem delete_terminal_only_spec (store : List Job) (j : Job) (st : Status)
    (s : String) :
    ((deleteFromStore store j).2 = DeleteOutcome.okDeleted ↔
        j.status.isTerminal = true) ∧
      (j.status.isTerminal = false →
        deleteFromStore store j = (store, DeleteOutcome.conflict)) ∧
      deleteHttpStatus DeleteOutcome.conflict = 409 ∧
      (st.isTerminal = false ↔ (st = Status.queued ∨ st = Status.running)) ∧
      showDeleteButton (statusString st) = st.isTerminal ∧
      jobDetailShowDelete s = showDeleteButton s := by
  refine ⟨?_, ?_, rfl, ?_, ?_, ?_⟩
  · by_cases h : j.status.isTerminal = true <;> simp [deleteFromStore, h]
  · intro h
    simp [deleteFromStore, h]
  · cases st <;> simp [Status.isTerminal]
  · cases st <;> decide
  · by_cases h1 : s = "running" <;> by_cases h2 : s = "queued" <;>
      simp [jobDetailShowDelete, showDeleteButton, h1, h2]

/-- Witness for C8: deleting a finished job succeeds, deleting a queued job
conflicts and leaves the store unchanged. -/
theorem delete_terminal_only_witness :
    (deleteFromStore [exDoneJob] exDoneJob).2 = DeleteOutcome.okDeleted ∧
      deleteFromStore [exQueuedJob] exQueuedJob
        = ([exQueuedJob], DeleteOutcome.conflict) :=
  ⟨(delete_terminal_only_spec [exDoneJob] exDoneJob Status.done "x").1.mpr rfl,
    (delete_terminal_only_spec [exQueuedJob] exQueuedJob Status.done "x").2.1 rfl⟩

/-- C9 counterexample: a 500 response whose JSON body has `detail` present
but equal to the empty string throws "API error: 500", not the present
`detail` value — `body.detail || ...` uses JavaScript truthiness, so a
present-but-falsy `detail` is ignored. -/
theorem apiJson_counterexample :
    exDetailEmptyRes.bodyJson = some (Json.obj [("detail", Json.strVal "")]) ∧
      apiJson exDetailEmptyRes = ApiOutcome.apiError "API error: 500" ∧
      apiJson exDetailEmptyRes ≠ ApiOutcome.apiError "" := by
  refine ⟨rfl, by rfl, ?_⟩
  intro h
  rw [show apiJson exDetailEmptyRes = ApiOutcome.apiError "API error: 500"
    from by rfl] at h
  injection h with h2
  exact absurd h2 (by decide)

/-- C9 (amended): `apiJson` returns the parsed JSON body exactly when the
response status is ok and the body parses (an unparseable ok body propagates
the parse rejection); on status 401 it redirects to /login and throws
"Unauthorized"; on any other non-ok status it throws: the Error message is
the body's `detail` value stringified (the string itself when `detail` is a
string) whenever that value is truthy; the property access raises a
TypeError when the body is JSON null; and in every remaining case (`detail`
absent, `detail` falsy — null, false, 0 or the empty string — or body
unparseable) the message is "API error: <status>"; `apiJson` never returns a
value for a non-ok response. -/
theorem apiJson_spec (r : ApiResponse) :
    (resOk r = true → ∀ b, r.bodyJson = some b →
        apiJson r = ApiOutcome.success b) ∧
      (∀ b, apiJson r = ApiOutcome.success b → resOk r = true) ∧
      (r.status = 401 → apiJson r = ApiOutcome.redirectLogin "Unauthorized") ∧
      (resOk r = false → ¬(r.status = 401) → ∀ b v, r.bodyJson = some b →
        getDetail b = JsProp.val v → jsTruthyJson v = true →
        apiJson r = ApiOutcome.apiError (jsToString v)) ∧
      (resOk r = false → ¬(r.status = 401) → r.bodyJson = some Json.nullVal →
        apiJson r = ApiOutcome.typeError) ∧
      (resOk r = false → ¬(r.status = 401) → ∀ b, r.bodyJson = some b →
        getDetail b = JsProp.undef →
        apiJson r = ApiOutcome.apiError ("API error: " ++ toString r.status)) ∧
      (resOk r = false → ¬(r.status = 401) → ∀ b v, r.bodyJson = some b →
        getDetail b = JsProp.val v → jsTruthyJson v = false →
        apiJson r = ApiOutcome.apiError ("API error: " ++ toString r.status)) ∧
      (resOk r = false → ¬(r.status = 401) → r.bodyJson = none →
        apiJson r = ApiOutcome.apiError ("API error: " ++ toString r.status)) := by
  refine ⟨?_, ?_, ?_, ?_, ?_, ?_, ?_, ?_⟩
  · intro hok b hb
    have h401 : ¬(r.status = 401) := by
      simp only [resOk, Bool.and_eq_true, decide_eq_true_eq] at hok
      omega
    simp [apiJson, h401, hok, hb]
  · intro b hb
    by_cases h401 : r.status = 401
    · simp [apiJson, h401] at hb
    · by_cases hok : resOk r = true
      · exact hok
      · simp only [Bool.not_eq_true] at hok
        rcases hbody : r.bodyJson with _ | bj
        · simp [apiJson, h401, hok, hbody, getDetail, List.lookup] at hb
        · rcases hd : getDetail bj with _ | _ | v
          · simp [apiJson, h401, hok, hbody, hd] at hb
          · simp [apiJson, h401, hok, hbody, hd] at hb
          · by_cases htr : jsTruthyJson v = true <;>
              simp [apiJson, h401, hok, hbody, hd, htr] at hb
  · intro h401
    simp [apiJson, h401]
  · intro hok h401 b v hb hd htr
    simp [apiJson, h401, hok, hb, hd, htr]
  · intro hok h401 hb
    simp [apiJson, h401, hok, hb, getDetail]
  · intro hok h401 b hb hd
    simp [apiJson, h401, hok, hb, hd]
  · intro hok h401 b v hb hd htr
    simp [apiJson, h401, hok, hb, hd, htr]
  · intro hok h401 hb
    simp [apiJson, h401, hok, hb, getDetail]

/-- Witness for C9 (amended): an ok response returns its parsed body; a 401
response redirects and throws "Unauthorized"; a non-ok JSON-null body raises
a TypeError; a FastAPI-style array `detail` is thrown stringified. -/
theorem apiJson_witness :
    apiJson exOkRes = ApiOutcome.success (Json.obj []) ∧
      apiJson { status := 401, bodyJson := none }
        = ApiOutcome.redirectLogin "Unauthorized" ∧
      apiJson exNullBodyRes = ApiOutcome.typeError ∧
      apiJson exArrDetailRes = ApiOutcome.apiError "body invalid" := by
  refine ⟨(apiJson_spec exOkRes).1 (by decide) (Json.obj []) rfl,
    (apiJson_spec { status := 401, bodyJson := none }).2.2.1 rfl,
    (apiJson_spec exNullBodyRes).2.2.2.2.1 (by decide) (by decide) rfl, ?_⟩
  exact (apiJson_spec exArrDetailRes).2.2.2.1 (by decide) (by decide)
    (Json.obj [("detail", Json.arr [Json.strVal "body invalid"])])
    (Json.arr [Json.strVal "body invalid"]) rfl rfl rfl

/-- C10 counterexample: "toString" is not a registered status, yet the
bracket lookup finds the truthy member inherited from `Object.prototype`
through the prototype chain, so the `||` fallback never fires and the badge
style is not the cancelled style. -/
theorem status_badge_counterexample :
    "toString" ∉ knownStatuses ∧
      badgeStyle "toString" = JsVal.inherited "toString" ∧
      badgeStyle "toString" ≠ JsVal.strVal cancelledStyle := by
  decide

/-- C10 (amended): StatusBadge always renders the raw status text; each of
the five registered statuses renders its registered style; every other
status string that does not name an `Object.prototype` member falls back to
the cancelled style, while a status naming an inherited `Object.prototype`
member yields that truthy inherited value instead of the fallback; the
pulsing indicator dot is rendered exactly when the status equals "running". -/
theorem status_badge_spec (s : String) :
    badgeText s = s ∧
      badgeStyle "queued"
        = JsVal.strVal "bg-yellow-900/50 text-yellow-300 border-yellow-700" ∧
      badgeStyle "running"
        = JsVal.strVal "bg-blue-900/50 text-blue-300 border-blue-700" ∧
      badgeStyle "done"
        = JsVal.strVal "bg-green-900/50 text-green-300 border-green-700" ∧
      badgeStyle "failed"
        = JsVal.strVal "bg-red-900/50 text-red-300 border-red-700" ∧
      badgeStyle "cancelled" = JsVal.strVal cancelledStyle ∧
      (s ∉ knownStatuses → s ∉ objectProtoMembers →
        badgeStyle s = JsVal.strVal cancelledStyle) ∧
      (s ∈ objectProtoMembers → badgeStyle s = JsVal.inherited s) ∧
      (showsDot s = true ↔ s = "running") := by
  refine ⟨rfl, by decide, by decide, by decide, by decide, by decide, ?_, ?_,
    by simp [showsDot]⟩
  · intro hs hp
    simp only [knownStatuses, List.mem_cons, List.not_mem_nil, or_false,
      not_or] at hs
    rcases hs with ⟨h1, h2, h3, h4, h5⟩
    simp [badgeStyle, styleLookup, STATUS_STYLES, jsTruthyVal, h1, h2, h3,
      h4, h5, hp]
  · intro hp
    fin_cases hp <;> decide

/-- Witness for C10 (amended) at the unregistered strings "mystery" (plain
fallback) and "valueOf" (inherited member). -/
theorem status_badge_witness :
    badgeStyle "mystery" = JsVal.strVal cancelledStyle ∧
      badgeStyle "valueOf" = JsVal.inherited "valueOf" ∧
      (showsDot "mystery" = true ↔ "mystery" = "running") :=
  ⟨(status_badge_spec "mystery").2.2.2.2.2.2.1 (by decide) (by decide),
    (status_badge_spec "valueOf").2.2.2.2.2.2.2.1 (by decide),
    (status_badge_spec "mystery").2.2.2.2.2.2.2.2⟩

end InvestAgent
